import Mathlib

/-!
# Verification of the Ghomap single-collection store engine

Shallow embedding of `src/Ghomap.ts` and `src/utils.ts` (the key-value file
store): JSON-like values, the serializer wrapper, the key validator, the
readiness gate, the cache / disk / pending-write state, and every public
operation of the `Ghomap` class.

Modelling conventions:
* JSON values are the inductive `Val`; the constructor `Val.circular`
  stands for a value `JSON.stringify` rejects (a circular structure).
* A JS `Map` is an insertion-ordered association list with unique keys;
  `mapSet` replaces in place, as `Map.prototype.set` does.
* The on-disk directory is the field `disk`: an entry `(k, v)` means the
  file `filepath k` exists and its content is `render v` (files written by
  the store always parse back; unparseable foreign files are out of scope).
* `await` points of the TypeScript code split an operation into an initial
  synchronous segment and a completion segment.  An issued but not yet
  completed `fsp.writeFile` is an entry of `pending`; `finishOp` runs the
  completion (the file becomes durable, then the continuation of
  `Ghomap.write` executes — including its synchronous recursive call).
* Operations return `Except GError α × Store`, so a thrown error still
  carries the state mutations performed before the throw.
-/

/-- JSON-like values (`T` of `Ghomap<T>`). `circular` models a value that
`JSON.stringify` cannot serialize. -/
inductive Val where
  | vnull
  | vbool (b : Bool)
  | vnum (n : Int)
  | vstr (s : String)
  | varr (l : List Val)
  | circular
deriving Repr

mutual

/-- `true` iff `JSON.stringify` succeeds on the value. -/
def serializable : Val → Bool
  | .varr l => serializableList l
  | .circular => false
  | _ => true

def serializableList : List Val → Bool
  | [] => true
  | v :: vs => serializable v && serializableList vs

end

mutual

/-- The JSON text produced by `JSON.stringify` (string escaping elided;
only equality and inequality of rendered forms matter to the claims). -/
def render : Val → String
  | .vnull => "null"
  | .vbool true => "true"
  | .vbool false => "false"
  | .vnum n => toString n
  | .vstr s => "\"" ++ s ++ "\""
  | .varr l => "[" ++ renderList l ++ "]"
  | .circular => "<circular>"

def renderList : List Val → String
  | [] => ""
  | [v] => render v
  | v :: vs => render v ++ "," ++ renderList vs

end

mutual

/-- Structural equality on values (models `===` on primitives, which is all
the array helpers are exercised with in the claims). -/
def valBeq : Val → Val → Bool
  | .vnull, .vnull => true
  | .vbool a, .vbool b => a == b
  | .vnum a, .vnum b => a == b
  | .vstr a, .vstr b => a == b
  | .varr a, .varr b => valListBeq a b
  | .circular, .circular => true
  | _, _ => false

def valListBeq : List Val → List Val → Bool
  | [], [] => true
  | a :: as, b :: bs => valBeq a b && valListBeq as bs
  | _, _ => false

end

instance : BEq Val := ⟨valBeq⟩

/-- `v === null` in JS (only the `null` value is null). -/
def Val.isNull : Val → Bool
  | .vnull => true
  | _ => false

/-- The error taxonomy thrown by the store (`utils.ts` and `Ghomap.ts`).
Each constructor carries the text the source interpolates into the message. -/
inductive GError where
  /-- `checkReady`: `the database must be ready to use this feature: <f>()` -/
  | notReady (feature : String)
  /-- `validateKey`: `provided key must be formatted in kebab-case` -/
  | invalidKey
  /-- `stringify`: `provided data must be json-able` -/
  | notSerializable
  /-- `TargetTypeError`: `the <fn>() function must bu used on Array data.` -/
  | targetType (fn : String)
  /-- a filesystem failure surfaced by `fs/promises` (e.g. `rmdir`) -/
  | ioError (msg : String)
deriving Repr, DecidableEq

/-! ## JS `Map` as an insertion-ordered association list -/

/-- `Map.prototype.get`. -/
def mapGet {α : Type} (m : List (String × α)) (k : String) : Option α :=
  match m with
  | [] => none
  | (k1, v) :: rest => if k1 = k then some v else mapGet rest k

/-- `Map.prototype.has`. -/
def mapHas {α : Type} (m : List (String × α)) (k : String) : Bool :=
  (mapGet m k).isSome

/-- `Map.prototype.set`: replace in place, else append. -/
def mapSet {α : Type} (m : List (String × α)) (k : String) (v : α) :
    List (String × α) :=
  match m with
  | [] => [(k, v)]
  | (k1, v1) :: rest =>
    if k1 = k then (k, v) :: rest else (k1, v1) :: mapSet rest k v

/-- `Map.prototype.delete` (first match; keys are unique in store state). -/
def mapDelete {α : Type} (m : List (String × α)) (k : String) :
    List (String × α) :=
  match m with
  | [] => []
  | (k1, v1) :: rest => if k1 = k then rest else (k1, v1) :: mapDelete rest k

/-! ## `utils.ts` -/

def isLowerAlpha (c : Char) : Bool := decide ('a' ≤ c) && decide (c ≤ 'z')

def isKebabChar (c : Char) : Bool := isLowerAlpha c || c = '-'

/-- `utils.validateKey`: the kebab-case regex `^[a-z][a-z-]*[a-z]$`
(first char lower, then kebab chars, last char lower, length ≥ 2);
`true` = the key passes, otherwise the source throws. -/
def validKeyB (s : String) : Bool :=
  match s.data with
  | [] => false
  | c :: rest =>
    match rest.getLast? with
    | none => false
    | some d => isLowerAlpha c && isLowerAlpha d && rest.all isKebabChar

/-- `utils.stringify`: `JSON.stringify` wrapped to throw
`provided data must be json-able` on failure. -/
def stringify (v : Val) : Except GError String :=
  if serializable v then .ok (render v) else .error .notSerializable

/-! ## Store state -/

/-- The state of one `Ghomap` instance together with its directory and the
set of issued-but-not-completed `fsp.writeFile` calls. -/
structure Store where
  name : String
  useCache : Bool
  cacheOnly : Bool
  fetchAllOnStart : Bool
  /-- the private `ready` flag read by the `checkReady` decorator -/
  ready : Bool
  /-- whether `<basePath>/<name>` currently exists on disk -/
  dirExists : Bool
  /-- the private `cache` map -/
  cache : List (String × Val)
  /-- the files of the store directory: `(k, v)` ⟺ `<k>.json` has content `render v` -/
  disk : List (String × Val)
  /-- the private `waiting` map of `Ghomap.write` -/
  waiting : List (String × Val)
  /-- issued `fsp.writeFile` calls whose continuation has not yet run:
  the key and the value whose rendering is being written -/
  pending : List (String × Val)
deriving Repr

/-- The static `Ghomap.path` default: `path.join(root, "data")`
(`path.join` modelled as `/`-concatenation; no claim depends on
normalization). -/
def Ghomap.dataPath : String := "./data"

/-- The private `path` getter: `path.join(Ghomap.path, this.name)`. -/
def Store.dirPath (st : Store) : String := Ghomap.dataPath ++ "/" ++ st.name

/-- The private `filepath` method: `path.join(this.path, key) + ".json"`.
The key is used verbatim — no validation, no escaping. -/
def Store.filepath (st : Store) (key : String) : String :=
  st.dirPath ++ "/" ++ key ++ ".json"

/-- The `cacheUsed` getter: `useCache || cacheOnly`. -/
def Store.cacheUsed (st : Store) : Bool := st.useCache || st.cacheOnly

/-- The constructor body after `validateKey` succeeded on the name:
configuration only, no I/O; `ready` starts `true` exactly in cache-only
mode. -/
def Ghomap.mkStore (name : String) (useCache cacheOnly fetchAllOnStart : Bool) :
    Store :=
  { name := name
    useCache := useCache
    cacheOnly := cacheOnly
    fetchAllOnStart := fetchAllOnStart
    ready := cacheOnly
    dirExists := false
    cache := []
    disk := []
    waiting := []
    pending := [] }

/-- The constructor `new Ghomap(options)`: `validateKey(name)` may throw. -/
def Ghomap.make (name : String) (useCache cacheOnly fetchAllOnStart : Bool) :
    Except GError Store :=
  if validKeyB name then .ok (Ghomap.mkStore name useCache cacheOnly fetchAllOnStart)
  else .error .invalidKey

/-- Startup scan of `open`: for every `*.json` file, parse it and cache the
value when it is not `null` (`utils.parse(raw) ?? null`). -/
def loadAll (cache : List (String × Val)) : List (String × Val) →
    List (String × Val)
  | [] => cache
  | (k, v) :: rest =>
    loadAll (if v.isNull then cache else mapSet cache k v) rest

/-- `Ghomap.open`: ensure the directories, optionally fetch-all into the
cache, set `ready`.  `dirFiles` is the content of the store directory after
`ensureDir` (the environment input `fsp.readdir` observes). -/
def openOp (st : Store) (dirFiles : List (String × Val)) : Store :=
  if st.cacheOnly then { st with ready := true }
  else
    let st1 := { st with dirExists := true, disk := dirFiles }
    let st2 :=
      if st1.fetchAllOnStart && st1.useCache then
        { st1 with cache := loadAll st1.cache dirFiles }
      else st1
    { st2 with ready := true }

/-- The `checkReady` decorator: throw
`the database must be ready to use this feature: <feature>()` unless
`this.isReady`. -/
def checkReadyE (st : Store) (feature : String) : Except GError Unit :=
  if st.ready then .ok () else .error (.notReady feature)

/-! ## `Ghomap.write` and `Ghomap.set` -/

/-- The synchronous prefix of `Ghomap.write(key, data)`, up to the
`await fsp.writeFile`:
* if no write for `key` is in flight, record `data` in `waiting`, serialize
  it (which may throw), and issue the file write (an entry of `pending`);
  the promise resolves only after `finishOp` runs;
* otherwise just replace the `waiting` entry — the promise resolves at once
  and no I/O happens. -/
def writeBeginSt (st : Store) (k : String) (v : Val) :
    Except GError Val × Store :=
  if mapHas st.waiting k then
    (.ok v, { st with waiting := mapSet st.waiting k v })
  else
    let st1 := { st with waiting := mapSet st.waiting k v }
    match stringify v with
    | .error e => (.error e, st1)
    | .ok _written => (.ok v, { st1 with pending := st1.pending ++ [(k, v)] })

/-- The continuation of `Ghomap.write` after `await fsp.writeFile`
returned: if a different value now sits in `waiting`, the code calls
`write` recursively, but that call re-enters with `waiting.has(key) =
true` and so only re-stores the same value (no disk write, no cleanup);
if the values match, the `waiting` entry is deleted.  A non-serializable
`waiting` value makes the continuation throw before either branch
(waiting untouched). -/
def finishCont (st1 : Store) (k : String) (written : String) : Store :=
  match mapGet st1.waiting k with
  | none => st1
  | some u =>
    match stringify u with
    | .error _ => st1
    | .ok s =>
      if s = written then { st1 with waiting := mapDelete st1.waiting k }
      else st1

/-- The completion of the oldest issued `fsp.writeFile` for `k` (if any):
the file becomes `render w` durably, then the continuation `finishCont`
runs. -/
def finishOp (st : Store) (k : String) : Store :=
  match mapGet st.pending k with
  | none => st
  | some w =>
    finishCont
      { st with disk := mapSet st.disk k w, pending := mapDelete st.pending k }
      k (render w)

/-- `Ghomap.set`: readiness gate, `validateKey`, cache update when caching
applies, early return in cache-only mode, else `write`. -/
def setOp (st : Store) (k : String) (v : Val) : Except GError Val × Store :=
  match checkReadyE st "set" with
  | .error e => (.error e, st)
  | .ok _ =>
    if validKeyB k then
      let st1 :=
        if st.cacheOnly || st.useCache then
          { st with cache := mapSet st.cache k v }
        else st
      if st1.cacheOnly then (.ok v, st1)
      else writeBeginSt st1 k v
    else (.error .invalidKey, st)

/-- `await ghomap.set(k, v)` run to full resolution: if `set` issued a disk
write for `k`, the promise resolves only after that write completes, so the
completion is included. -/
def setResolved (st : Store) (k : String) (v : Val) :
    Except GError Val × Store :=
  match setOp st k v with
  | (.ok d, st1) => (.ok d, finishOp st1 k)
  | (.error e, st1) => (.error e, st1)

/-! ## Reads and deletion -/

/-- `Ghomap.get`: gate, `validateKey`, cache read when the cache is
authoritative (`cache.get(key) ?? null`), else file read;
`utils.parse(raw) ?? null` is the parsed value itself (the `??` is nullish
coalescing, an identity on `JSON.parse` results), `null` when the file is
absent. -/
def getOp (st : Store) (k : String) : Except GError Val × Store :=
  match checkReadyE st "get" with
  | .error e => (.error e, st)
  | .ok _ =>
    if validKeyB k then
      if st.cacheUsed then (.ok ((mapGet st.cache k).getD .vnull), st)
      else
        match mapGet st.disk k with
        | none => (.ok .vnull, st)
        | some w => (.ok w, st)
    else (.error .invalidKey, st)

/-- `Ghomap.has`: no key validation; cache membership or raw file-existence
check on `filepath(key)`. -/
def hasOp (st : Store) (k : String) : Except GError Bool × Store :=
  match checkReadyE st "has" with
  | .error e => (.error e, st)
  | .ok _ =>
    (.ok (if st.cacheUsed then mapHas st.cache k else mapHas st.disk k), st)

/-- `Ghomap.delete`: no key validation; cache-only mode touches only the
cache; otherwise a missing file is a silent no-op, else unlink the file and
(when `useCache`) drop the cache entry. -/
def deleteOp (st : Store) (k : String) : Except GError Unit × Store :=
  match checkReadyE st "delete" with
  | .error e => (.error e, st)
  | .ok _ =>
    if st.cacheOnly then (.ok (), { st with cache := mapDelete st.cache k })
    else if mapHas st.disk k then
      let st1 := { st with disk := mapDelete st.disk k }
      (.ok (), if st.useCache then { st1 with cache := mapDelete st1.cache k }
               else st1)
    else (.ok (), st)

/-- `Ghomap.count`: cache size when the cache is authoritative, else the
number of directory entries (`fsp.readdir(...).length`). -/
def countOp (st : Store) : Except GError Nat × Store :=
  match checkReadyE st "count" with
  | .error e => (.error e, st)
  | .ok _ =>
    (.ok (if st.cacheUsed then st.cache.length else st.disk.length), st)

/-! ## Disk enumeration -/

/-- `Ghomap.fetchKeys`: cache keys in cache-only mode, else the `*.json`
file stems of the directory. -/
def fetchKeysOp (st : Store) : Except GError (List String) × Store :=
  match checkReadyE st "fetchKeys" with
  | .error e => (.error e, st)
  | .ok _ =>
    if st.cacheOnly then (.ok (st.cache.map (·.1)), st)
    else (.ok (st.disk.map (·.1)), st)

/-- The loading loop of `fetchAll`: `get` each key sequentially, keep the
non-null results (a `get` failure aborts and propagates). -/
def fetchAllGo (st : Store) : List String →
    Except GError (List (String × Val))
  | [] => .ok []
  | k :: ks =>
    match (getOp st k).1 with
    | .error e => .error e
    | .ok v =>
      match fetchAllGo st ks with
      | .error e => .error e
      | .ok rest => .ok (if v.isNull then rest else (k, v) :: rest)

/-- `Ghomap.fetchAll`: `fetchKeys` then load each value, skipping entries
that read back as `null`. -/
def fetchAllOp (st : Store) : Except GError (List (String × Val)) × Store :=
  match checkReadyE st "fetchAll" with
  | .error e => (.error e, st)
  | .ok _ =>
    match fetchKeysOp st with
    | (.error e, st1) => (.error e, st1)
    | (.ok keys, st1) =>
      match fetchAllGo st1 keys with
      | .error e => (.error e, st1)
      | .ok entries => (.ok entries, st1)

/-- `Ghomap.fetchValues`: the values of `fetchAll`. -/
def fetchValuesOp (st : Store) : Except GError (List Val) × Store :=
  match checkReadyE st "fetchValues" with
  | .error e => (.error e, st)
  | .ok _ =>
    match fetchAllOp st with
    | (.error e, st1) => (.error e, st1)
    | (.ok entries, st1) => (.ok (entries.map (·.2)), st1)

/-- The snapshot every bulk-scan operation iterates:
`this.cacheUsed ? this.cache : await this.fetchAll()`. -/
def entriesSnapshot (st : Store) : Except GError (List (String × Val)) :=
  if st.cacheUsed then .ok st.cache
  else
    match fetchAllOp st with
    | (.error e, _) => .error e
    | (.ok entries, _) => .ok entries

/-! ## Bulk-scan operations

The visitor callbacks are modelled as pure functions `(data, key) → _`;
the source awaits each invocation strictly sequentially. -/

/-- `Ghomap.forEach` with a side-effect-free visitor: iterate the snapshot
for the visitor's sake only. -/
def forEachOp (st : Store) (f : Val → String → Unit) :
    Except GError Unit × Store :=
  match checkReadyE st "forEach" with
  | .error e => (.error e, st)
  | .ok _ =>
    match entriesSnapshot st with
    | .error e => (.error e, st)
    | .ok entries => ((entries.map (fun e => f e.2 e.1)).foldl (fun _ _ => .ok ()) (.ok ()), st)

/-- `Ghomap.map`. -/
def mapOp {R : Type} (st : Store) (f : Val → String → R) :
    Except GError (List R) × Store :=
  match checkReadyE st "map" with
  | .error e => (.error e, st)
  | .ok _ =>
    match entriesSnapshot st with
    | .error e => (.error e, st)
    | .ok entries => (.ok (entries.map (fun e => f e.2 e.1)), st)

/-- The loop of `Ghomap.some`: return `true` on the first entry whose
predicate result is truthy. -/
def someGo (p : Val → String → Bool) : List (String × Val) → Bool
  | [] => false
  | (k, v) :: rest => if p v k then true else someGo p rest

/-- `Ghomap.some`. -/
def someOp (st : Store) (p : Val → String → Bool) :
    Except GError Bool × Store :=
  match checkReadyE st "some" with
  | .error e => (.error e, st)
  | .ok _ =>
    match entriesSnapshot st with
    | .error e => (.error e, st)
    | .ok entries => (.ok (someGo p entries), st)

/-- `Ghomap.every`, exactly as the source defines it:
`return !(await this.some(callback))`. -/
def everyOp (st : Store) (p : Val → String → Bool) :
    Except GError Bool × Store :=
  match checkReadyE st "every" with
  | .error e => (.error e, st)
  | .ok _ =>
    match someOp st p with
    | (.error e, st1) => (.error e, st1)
    | (.ok b, st1) => (.ok (!b), st1)

/-- `Ghomap.filter` (result is a `Map`, i.e. an ordered association list). -/
def filterOp (st : Store) (p : Val → String → Bool) :
    Except GError (List (String × Val)) × Store :=
  match checkReadyE st "filter" with
  | .error e => (.error e, st)
  | .ok _ =>
    match entriesSnapshot st with
    | .error e => (.error e, st)
    | .ok entries => (.ok (entries.filter (fun e => p e.2 e.1)), st)

/-- `Ghomap.filterArray`. -/
def filterArrayOp (st : Store) (p : Val → String → Bool) :
    Except GError (List Val) × Store :=
  match checkReadyE st "filterArray" with
  | .error e => (.error e, st)
  | .ok _ =>
    match entriesSnapshot st with
    | .error e => (.error e, st)
    | .ok entries => (.ok ((entries.filter (fun e => p e.2 e.1)).map (·.2)), st)

/-- The loop of `Ghomap.find`. -/
def findGo (p : Val → String → Bool) : List (String × Val) → Option Val
  | [] => none
  | (k, v) :: rest => if p v k then some v else findGo p rest

/-- `Ghomap.find` (`none` models the `null` result). -/
def findOp (st : Store) (p : Val → String → Bool) :
    Except GError (Option Val) × Store :=
  match checkReadyE st "find" with
  | .error e => (.error e, st)
  | .ok _ =>
    match entriesSnapshot st with
    | .error e => (.error e, st)
    | .ok entries => (.ok (findGo p entries), st)

/-! ## `deleteAll`, `destroy`, `random`, `ensure` -/

/-- The iteration of `deleteAll`: `forEach((data, key) => this.delete(key))`
over the snapshot, threading the store through each `delete`. -/
def deleteAllGo : Store → List String → Except GError Unit × Store
  | st, [] => (.ok (), st)
  | st, k :: ks =>
    match deleteOp st k with
    | (.error e, st1) => (.error e, st1)
    | (.ok _, st1) => deleteAllGo st1 ks

/-- `Ghomap.deleteAll`: `forEach` deleting every key of the snapshot
(the snapshot is the cache when the cache is authoritative, else a full
disk enumeration). -/
def deleteAllOp (st : Store) : Except GError Unit × Store :=
  match checkReadyE st "deleteAll" with
  | .error e => (.error e, st)
  | .ok _ =>
    match entriesSnapshot st with
    | .error e => (.error e, st)
    | .ok entries => deleteAllGo st (entries.map (·.1))

/-- `Ghomap.destroy`: `deleteAll`, then `fsp.rmdir(this.path)` — which
fails unless the directory exists and is empty — then `ready = false`. -/
def destroyOp (st : Store) : Except GError Unit × Store :=
  match checkReadyE st "destroy" with
  | .error e => (.error e, st)
  | .ok _ =>
    match deleteAllOp st with
    | (.error e, st1) => (.error e, st1)
    | (.ok _, st1) =>
      if st1.dirExists && st1.disk.isEmpty then
        (.ok (), { st1 with ready := false, dirExists := false })
      else (.error (.ioError "rmdir"), st1)

/-- `Ghomap.random`: draw from the cached keys when the cache is
authoritative, else from `fetchKeys`; `pick` models the
`Math.floor(Math.random() * keys.length)` draw (reduced modulo the length). -/
def randomOp (st : Store) (pick : Nat) : Except GError Val × Store :=
  match checkReadyE st "random" with
  | .error e => (.error e, st)
  | .ok _ =>
    let keysE : Except GError (List String) :=
      if st.cacheUsed then .ok (st.cache.map (·.1))
      else (fetchKeysOp st).1
    match keysE with
    | .error e => (.error e, st)
    | .ok keys =>
      if h : keys.length = 0 then (.ok .vnull, st)
      else getOp st (keys.get ⟨pick % keys.length, Nat.mod_lt _ (Nat.pos_of_ne_zero h)⟩)

/-- `Ghomap.ensure`: `get`, and when the result is `null`, `set` the
default. -/
def ensureOp (st : Store) (k : String) (d : Val) : Except GError Val × Store :=
  match checkReadyE st "ensure" with
  | .error e => (.error e, st)
  | .ok _ =>
    match getOp st k with
    | (.error e, st1) => (.error e, st1)
    | (.ok v, st1) => if v.isNull then setOp st1 k d else (.ok v, st1)

/-! ## Array-mutation helpers

Each loads the current value via `get`, fails with `TargetTypeError` when
it is not an `Array`, and otherwise mutates and persists via `set`. -/

/-- `Ghomap.push`. -/
def pushOp (st : Store) (k : String) (items : List Val) :
    Except GError (List Val) × Store :=
  match checkReadyE st "push" with
  | .error e => (.error e, st)
  | .ok _ =>
    match getOp st k with
    | (.error e, st1) => (.error e, st1)
    | (.ok (.varr l), st1) =>
      match setOp st1 k (.varr (l ++ items)) with
      | (.error e, st2) => (.error e, st2)
      | (.ok _, st2) => (.ok items, st2)
    | (.ok _, st1) => (.error (.targetType "push"), st1)

/-- `Ghomap.unshift`. -/
def unshiftOp (st : Store) (k : String) (item : Val) :
    Except GError Val × Store :=
  match checkReadyE st "unshift" with
  | .error e => (.error e, st)
  | .ok _ =>
    match getOp st k with
    | (.error e, st1) => (.error e, st1)
    | (.ok (.varr l), st1) =>
      match setOp st1 k (.varr (item :: l)) with
      | (.error e, st2) => (.error e, st2)
      | (.ok _, st2) => (.ok item, st2)
    | (.ok _, st1) => (.error (.targetType "unshift"), st1)

/-- `Ghomap.pop` (`none` models the `undefined` popped from an empty
array). -/
def popOp (st : Store) (k : String) : Except GError (Option Val) × Store :=
  match checkReadyE st "pop" with
  | .error e => (.error e, st)
  | .ok _ =>
    match getOp st k with
    | (.error e, st1) => (.error e, st1)
    | (.ok (.varr l), st1) =>
      match setOp st1 k (.varr l.dropLast) with
      | (.error e, st2) => (.error e, st2)
      | (.ok _, st2) => (.ok l.getLast?, st2)
    | (.ok _, st1) => (.error (.targetType "pop"), st1)

/-- `Ghomap.shift`. -/
def shiftOp (st : Store) (k : String) : Except GError (Option Val) × Store :=
  match checkReadyE st "shift" with
  | .error e => (.error e, st)
  | .ok _ =>
    match getOp st k with
    | (.error e, st1) => (.error e, st1)
    | (.ok (.varr l), st1) =>
      match setOp st1 k (.varr l.tail) with
      | (.error e, st2) => (.error e, st2)
      | (.ok _, st2) => (.ok l.head?, st2)
    | (.ok _, st1) => (.error (.targetType "shift"), st1)

/-- Drop the first occurrence of `item` (the `indexOf`/`splice` pair). -/
def eraseFirst (l : List Val) (item : Val) : List Val :=
  match l with
  | [] => []
  | x :: xs => if valBeq x item then xs else x :: eraseFirst xs item

/-- `Ghomap.remove`: `indexOf`, conditional `splice`, unconditional `set`,
return the removed item or `null`.  In the non-array branch the source
throws `new utils.TargetTypeError("shift")` — the literal string is
`"shift"`, not `"remove"` (Ghomap.ts line 406). -/
def removeOp (st : Store) (k : String) (item : Val) :
    Except GError (Option Val) × Store :=
  match checkReadyE st "remove" with
  | .error e => (.error e, st)
  | .ok _ =>
    match getOp st k with
    | (.error e, st1) => (.error e, st1)
    | (.ok (.varr l), st1) =>
      let found := l.any (fun x => valBeq x item)
      match setOp st1 k (.varr (if found then eraseFirst l item else l)) with
      | (.error e, st2) => (.error e, st2)
      | (.ok _, st2) => (.ok (if found then some item else none), st2)
    | (.ok _, st1) => (.error (.targetType "shift"), st1)

/-- `Ghomap.includes`. -/
def includesOp (st : Store) (k : String) (item : Val) :
    Except GError Bool × Store :=
  match checkReadyE st "includes" with
  | .error e => (.error e, st)
  | .ok _ =>
    match getOp st k with
    | (.error e, st1) => (.error e, st1)
    | (.ok (.varr l), st1) => (.ok (l.any (fun x => valBeq x item)), st1)
    | (.ok _, st1) => (.error (.targetType "includes"), st1)

/-! ## Association-map lemmas -/

theorem mapGet_mapSet_self {α : Type} (m : List (String × α)) (k : String)
    (v : α) : mapGet (mapSet m k v) k = some v := by
  induction m with
  | nil => simp [mapSet, mapGet]
  | cons hd tl ih =>
    obtain ⟨k1, v1⟩ := hd
    by_cases h : k1 = k
    · simp [mapSet, h, mapGet]
    · simp [mapSet, h, mapGet, ih]

theorem mapGet_mapSet_ne {α : Type} (m : List (String × α)) {k1 k : String}
    (v : α) (h : k1 ≠ k) : mapGet (mapSet m k1 v) k = mapGet m k := by
  induction m with
  | nil => simp [mapSet, mapGet, h]
  | cons hd tl ih =>
    obtain ⟨k2, v2⟩ := hd
    by_cases h2 : k2 = k1
    · subst h2; simp [mapSet, mapGet, h]
    · simp [mapSet, h2, mapGet, ih]

theorem mapGet_mapDelete_ne {α : Type} (m : List (String × α)) {k1 k : String}
    (h : k1 ≠ k) : mapGet (mapDelete m k1) k = mapGet m k := by
  induction m with
  | nil => simp [mapDelete]
  | cons hd tl ih =>
    obtain ⟨k2, v2⟩ := hd
    by_cases h2 : k2 = k1
    · subst h2; simp [mapDelete, mapGet, h]
    · simp [mapDelete, h2, mapGet, ih]

theorem mapGet_append_none {α : Type} {m m2 : List (String × α)} {k : String}
    (h : mapGet m k = none) : mapGet (m ++ m2) k = mapGet m2 k := by
  induction m with
  | nil => simp
  | cons hd tl ih =>
    obtain ⟨k1, v1⟩ := hd
    by_cases h1 : k1 = k
    · simp [mapGet, h1] at h
    · simp [mapGet, h1] at h ⊢
      exact ih h

theorem mapHas_mapSet_self {α : Type} (m : List (String × α)) (k : String)
    (v : α) : mapHas (mapSet m k v) k = true := by
  simp [mapHas, mapGet_mapSet_self]

theorem mapHas_mapSet_ne {α : Type} (m : List (String × α)) {k1 k : String}
    (v : α) (h : k1 ≠ k) : mapHas (mapSet m k1 v) k = mapHas m k := by
  simp [mapHas, mapGet_mapSet_ne m v h]

theorem mapHas_mapDelete_ne {α : Type} (m : List (String × α)) {k1 k : String}
    (h : k1 ≠ k) : mapHas (mapDelete m k1) k = mapHas m k := by
  simp [mapHas, mapGet_mapDelete_ne m h]

/-- `finishCont` touches only `waiting`. -/
theorem finishCont_fields (st : Store) (k : String) (w : String) :
    (finishCont st k w).ready = st.ready ∧
    (finishCont st k w).cache = st.cache ∧
    (finishCont st k w).useCache = st.useCache ∧
    (finishCont st k w).cacheOnly = st.cacheOnly ∧
    (finishCont st k w).name = st.name ∧
    (finishCont st k w).disk = st.disk ∧
    (finishCont st k w).pending = st.pending := by
  unfold finishCont
  split
  · exact ⟨rfl, rfl, rfl, rfl, rfl, rfl, rfl⟩
  · split
    · exact ⟨rfl, rfl, rfl, rfl, rfl, rfl, rfl⟩
    · split <;> exact ⟨rfl, rfl, rfl, rfl, rfl, rfl, rfl⟩

/-- `finishOp` touches only `disk`, `pending` and `waiting`. -/
theorem finishOp_fields (st : Store) (k : String) :
    (finishOp st k).ready = st.ready ∧ (finishOp st k).cache = st.cache ∧
    (finishOp st k).useCache = st.useCache ∧
    (finishOp st k).cacheOnly = st.cacheOnly ∧
    (finishOp st k).name = st.name := by
  unfold finishOp
  split
  · exact ⟨rfl, rfl, rfl, rfl, rfl⟩
  · rename_i w hw
    obtain ⟨h1, h2, h3, h4, h5, _, _⟩ :=
      finishCont_fields
        { st with disk := mapSet st.disk k w, pending := mapDelete st.pending k }
        k (render w)
    exact ⟨h1, h2, h3, h4, h5⟩

/-! ## Concrete scenario states -/

/-- A fresh disk-backed store without cache, opened over an empty
directory: `new Ghomap({ useCache: false })` then `open()`. -/
def traceBase : Store := openOp (Ghomap.mkStore "default" false false true) []

/-- After `set("abc", 1)` was issued but its disk write has not completed. -/
def traceS1 : Store := (setOp traceBase "abc" (Val.vnum 1)).2

/-- After `set("abc", 2)` arrived while the write of `1` was in flight. -/
def traceS2 : Store := (setOp traceS1 "abc" (Val.vnum 2)).2

/-- After the in-flight write of `1` completed and the continuation of
`write` ran. -/
def traceS3 : Store := finishOp traceS2 "abc"

/-- A cache-only store holding the single entry `"abc" ↦ true`. -/
def c2St : Store :=
  (setOp (Ghomap.mkStore "default" true true true) "abc" (Val.vbool true)).2

/-- A cache-only store holding the non-array entry `"abc" ↦ 5`. -/
def c7St : Store :=
  (setOp (Ghomap.mkStore "default" true true true) "abc" (Val.vnum 5)).2

/-- A caching store opened with `fetchAllOnStart: false` over a directory
that already contains `abc.json`: the cache is empty, the disk is not. -/
def c6St : Store :=
  openOp (Ghomap.mkStore "default" true false false) [("abc", Val.vnum 1)]

/-- A disk-read store (no cache) over a directory whose `abc.json` has the
content `false`. -/
def c8St : Store :=
  openOp (Ghomap.mkStore "default" false false true) [("abc", Val.vbool false)]

/-- C2 — the source defines `every` as `!(await this.some(callback))`, so
on a store whose single entry satisfies the constant-`true` predicate,
`some` returns `true` and `every` returns `false`, although every entry
satisfies the predicate.  The claim (and spec §4.3/§9d) requires `true`
here; the code contradicts its own doc comment (`@returns True if every
successful check`). -/
theorem c2_every_is_negation_of_some :
    c2St.cache = [("abc", Val.vbool true)] ∧
    someOp c2St (fun _ _ => true) = (.ok true, c2St) ∧
    everyOp c2St (fun _ _ => true) = (.ok false, c2St) :=
  ⟨rfl, rfl, rfl⟩

/-- C7 — on a non-array value every array helper throws `TargetTypeError`
and leaves the store untouched, and five of the six name themselves in the
error; but `remove` throws `TargetTypeError("shift")`, so its error names
`shift`, not the attempted operation. -/
theorem c7_remove_error_names_shift :
    removeOp c7St "abc" (Val.vnum 1) = (.error (.targetType "shift"), c7St) ∧
    GError.targetType "shift" ≠ GError.targetType "remove" ∧
    pushOp c7St "abc" [Val.vnum 1] = (.error (.targetType "push"), c7St) ∧
    unshiftOp c7St "abc" (Val.vnum 1) = (.error (.targetType "unshift"), c7St) ∧
    popOp c7St "abc" = (.error (.targetType "pop"), c7St) ∧
    shiftOp c7St "abc" = (.error (.targetType "shift"), c7St) ∧
    includesOp c7St "abc" (Val.vnum 1) = (.error (.targetType "includes"), c7St) :=
  ⟨rfl, by decide, rfl, rfl, rfl, rfl, rfl⟩

/-- C6 — `deleteAll` iterates the cache snapshot when the cache is
authoritative, so with `useCache: true` and `fetchAllOnStart: false` over a
pre-populated directory it deletes nothing on disk: afterwards `count()`
is `0` (the cache size) but `abc.json` still exists.  `destroy`'s
`fsp.rmdir` relies on `deleteAll` emptying the directory, so the code
contradicts its own teardown path. -/
theorem c6_deleteAll_leaves_disk_entries :
    c6St.cache = [] ∧
    (deleteAllOp c6St).1 = .ok () ∧
    (countOp (deleteAllOp c6St).2).1 = .ok 0 ∧
    (deleteAllOp c6St).2.disk = [("abc", Val.vnum 1)] ∧
    (deleteAllOp c6St).2.disk ≠ [] :=
  ⟨rfl, rfl, rfl, rfl, by
    have h : (deleteAllOp c6St).2.disk = [("abc", Val.vnum 1)] := rfl
    rw [h]; simp⟩

/-- C8 counterexample — `get` uses nullish coalescing (`parse(raw) ?? null`),
not falsy coalescing: a file whose content parses to `false` is returned
as `false`, not as `null`, refuting the claim that every falsy parse
yields `null`. -/
theorem c8_counterexample_falsy_not_null :
    (getOp c8St "abc").1 = .ok (Val.vbool false) ∧
    Val.vbool false ≠ Val.vnull :=
  ⟨rfl, by simp⟩

/-- C8 as amended — for a ready disk-read store, `get(k)` returns the
parsed file content verbatim (even falsy values) and `null` exactly when
the file is absent (a parse to `null` is returned as `null` unchanged);
absence never throws. -/
theorem c8_get_returns_parse_verbatim (st : Store) (k : String)
    (hr : st.ready = true) (hk : validKeyB k = true)
    (hc : st.cacheUsed = false) :
    (mapGet st.disk k = none → getOp st k = (.ok .vnull, st)) ∧
    (∀ w, mapGet st.disk k = some w → getOp st k = (.ok w, st)) := by
  constructor
  · intro h
    simp [getOp, checkReadyE, hr, hk, hc, h]
  · intro w h
    simp [getOp, checkReadyE, hr, hk, hc, h]

/-- C8 witness — the amended statement at the concrete store `c8St` and
key `"abc"` whose file content parses to `false`. -/
theorem c8_witness :
    c8St.cacheUsed = false ∧ getOp c8St "abc" = (.ok (Val.vbool false), c8St) :=
  ⟨rfl, (c8_get_returns_parse_verbatim c8St "abc" rfl (by decide) rfl).2
    (Val.vbool false) rfl⟩

/-- C1 — write convergence fails: with `set("abc", 1)` issued and
`set("abc", 2)` (a different serialized form) arriving before the first
disk write completes, both calls resolve, all I/O drains
(`pending = []`), yet the file for `"abc"` contains the serialization of
`1`, not of `2`: the catch-up recursion inside `write` re-enters with
`waiting.has(key) = true` and performs no second write.  This contradicts
the function's own retry call and spec §4.5 step 3. -/
theorem c1_burst_leaves_first_value_on_disk :
    render (Val.vnum 1) ≠ render (Val.vnum 2) ∧
    (setOp traceS1 "abc" (Val.vnum 2)).1 = .ok (Val.vnum 2) ∧
    traceS3.pending = [] ∧
    mapGet traceS3.disk "abc" = some (Val.vnum 1) ∧
    mapGet traceS3.disk "abc" ≠ some (Val.vnum 2) :=
  ⟨by decide, rfl, rfl, rfl, by
    have h : mapGet traceS3.disk "abc" = some (Val.vnum 1) := rfl
    rw [h]; simp⟩

/-- C4 counterexample — from the reachable post-burst state `traceS3`
(all previous `set` calls resolved, no I/O outstanding), a fresh
`set("abc", 3)` resolves immediately (the stale `waiting` marker routes it
to the no-write branch), after which `get("abc")` reads the file and
returns `1`, not `3`. -/
theorem c4_counterexample_stale_read_after_set :
    (setOp traceS3 "abc" (Val.vnum 3)).1 = .ok (Val.vnum 3) ∧
    (setOp traceS3 "abc" (Val.vnum 3)).2.pending = [] ∧
    (getOp (setOp traceS3 "abc" (Val.vnum 3)).2 "abc").1 = .ok (Val.vnum 1) ∧
    Val.vnum 1 ≠ Val.vnum 3 :=
  ⟨rfl, rfl, rfl, by simp⟩


/-! ## Evaluation lemmas for `get`, `set` and the write completion -/

/-- `get` reads the cache when the cache is authoritative. -/
theorem getOp_cacheUsed (st : Store) (k : String) (hr : st.ready = true)
    (hk : validKeyB k = true) (hc : st.cacheUsed = true) :
    getOp st k = (.ok ((mapGet st.cache k).getD .vnull), st) := by
  unfold getOp checkReadyE
  simp [hr, hk, hc]

/-- `get` reads the file in disk-read mode. -/
theorem getOp_disk_some (st : Store) (k : String) (w : Val)
    (hr : st.ready = true) (hk : validKeyB k = true)
    (hc : st.cacheUsed = false) (hd : mapGet st.disk k = some w) :
    getOp st k = (.ok w, st) := by
  unfold getOp checkReadyE
  simp [hr, hk, hc, hd]

/-- A successful `set` resolves with the stored value, caches it exactly
when caching applies, and leaves `disk` and the configuration unchanged
(the disk write, if any, is still pending). -/
theorem setOp_ok_fields (st : Store) (k : String) (v : Val)
    (hr : st.ready = true) (hk : validKeyB k = true)
    (hs : serializable v = true) :
    (setOp st k v).1 = .ok v ∧
    (setOp st k v).2.cache =
      (if st.cacheOnly || st.useCache then mapSet st.cache k v
       else st.cache) ∧
    (setOp st k v).2.ready = st.ready ∧
    (setOp st k v).2.useCache = st.useCache ∧
    (setOp st k v).2.cacheOnly = st.cacheOnly ∧
    (setOp st k v).2.disk = st.disk := by
  unfold setOp checkReadyE writeBeginSt stringify
  by_cases hco : st.cacheOnly
  · simp [hr, hk, hs, hco]
  · by_cases hu : st.useCache
    · by_cases hwb : mapHas st.waiting k
      · simp [hr, hk, hs, hco, hu, hwb]
      · simp [hr, hk, hs, hco, hu, hwb]
    · by_cases hwb : mapHas st.waiting k
      · simp [hr, hk, hs, hco, hu, hwb]
      · simp [hr, hk, hs, hco, hu, hwb]

/-- A `set` in disk-backed no-cache mode with no write in flight for `k`
records the value in `waiting` and issues the disk write. -/
theorem setOp_nocache_fresh (st : Store) (k : String) (v : Val)
    (hr : st.ready = true) (hk : validKeyB k = true)
    (hs : serializable v = true) (hu : st.useCache = false)
    (ho : st.cacheOnly = false) (hw : mapHas st.waiting k = false) :
    setOp st k v =
      (.ok v, { st with waiting := mapSet st.waiting k v,
                        pending := st.pending ++ [(k, v)] }) := by
  unfold setOp checkReadyE writeBeginSt stringify
  simp [hr, hk, hs, hu, ho, hw]

/-- Completing a freshly issued write for `k` (no older write for `k`
outstanding) lands the value on disk and — the serialized forms matching —
clears the `waiting` marker. -/
theorem finishOp_fresh (st : Store) (k : String) (v : Val)
    (hs : serializable v = true) (hp : mapGet st.pending k = none) :
    finishOp { st with waiting := mapSet st.waiting k v,
                       pending := st.pending ++ [(k, v)] } k =
      { st with waiting := mapDelete (mapSet st.waiting k v) k,
                disk := mapSet st.disk k v,
                pending := mapDelete (st.pending ++ [(k, v)]) k } := by
  unfold finishOp
  have h1 : mapGet (st.pending ++ [(k, v)]) k = some v := by
    rw [mapGet_append_none hp]; simp [mapGet]
  simp only [h1]
  unfold finishCont
  have h2 : mapGet (mapSet st.waiting k v) k = some v := mapGet_mapSet_self _ _ _
  simp only [h2]
  unfold stringify
  simp [hs]

/-- C4 as amended — the set/get round-trip holds whenever the cache is
authoritative, and in disk-read mode additionally when no write for `k`
is in flight or stuck: after `set(k, v)` resolves (including its disk
write, when one was issued), a subsequent `get(k)` returns `v`.
Without the extra proviso the claim fails in disk-read mode (see the
counterexample): a stale `waiting` marker makes `set` skip the disk. -/
theorem c4_set_get_roundtrip (st : Store) (k : String) (v : Val)
    (hr : st.ready = true) (hk : validKeyB k = true)
    (hs : serializable v = true)
    (hq : st.cacheUsed = true ∨
          (mapHas st.waiting k = false ∧ mapGet st.pending k = none)) :
    (setResolved st k v).1 = .ok v ∧
    (getOp (setResolved st k v).2 k).1 = .ok v := by
  by_cases hc : st.cacheUsed = true
  · -- the cache is authoritative: `get` reads the entry `set` just cached,
    -- whatever the write machinery did afterwards
    obtain ⟨e1, e2, e3, e4, e5, _⟩ := setOp_ok_fields st k v hr hk hs
    have hsr : setResolved st k v = (.ok v, finishOp (setOp st k v).2 k) := by
      unfold setResolved
      rcases hso : setOp st k v with ⟨r, st2⟩
      rw [hso] at e1
      simp at e1
      subst e1
      rfl
    rw [hsr]
    obtain ⟨f1, f2, f3, f4, _⟩ := finishOp_fields (setOp st k v).2 k
    refine ⟨rfl, ?_⟩
    have hr2 : (finishOp (setOp st k v).2 k).ready = true := by rw [f1, e3, hr]
    have hc2 : (finishOp (setOp st k v).2 k).cacheUsed = true := by
      unfold Store.cacheUsed at hc ⊢
      rw [f3, f4, e4, e5]
      exact hc
    have hcache : (finishOp (setOp st k v).2 k).cache = mapSet st.cache k v := by
      rw [f2, e2]
      have : (st.cacheOnly || st.useCache) = true := by
        unfold Store.cacheUsed at hc
        rcases Bool.or_eq_true_iff.mp hc with h | h <;> simp [h]
      rw [this]
      simp
    rw [getOp_cacheUsed _ k hr2 hk hc2, hcache, mapGet_mapSet_self]
    rfl
  · -- disk-read mode with no write for `k` outstanding: the issued write
    -- completes cleanly and `get` reads the fresh file
    have hc0 : st.cacheUsed = false := by
      cases h2 : st.cacheUsed
      · rfl
      · exact absurd h2 hc
    obtain ⟨hw, hp⟩ := hq.resolve_left hc
    have hu : st.useCache = false := by
      unfold Store.cacheUsed at hc0
      exact (Bool.or_eq_false_iff.mp hc0).1
    have ho : st.cacheOnly = false := by
      unfold Store.cacheUsed at hc0
      exact (Bool.or_eq_false_iff.mp hc0).2
    have hset := setOp_nocache_fresh st k v hr hk hs hu ho hw
    have hfin := finishOp_fresh st k v hs hp
    have hsr : setResolved st k v =
        (.ok v, { st with waiting := mapDelete (mapSet st.waiting k v) k,
                          disk := mapSet st.disk k v,
                          pending := mapDelete (st.pending ++ [(k, v)]) k }) := by
      unfold setResolved
      rw [hset]
      simp only []
      rw [hfin]
    refine ⟨by rw [hsr], ?_⟩
    have h2 : (setResolved st k v).2 =
        { st with waiting := mapDelete (mapSet st.waiting k v) k,
                  disk := mapSet st.disk k v,
                  pending := mapDelete (st.pending ++ [(k, v)]) k } := by
      rw [hsr]
    rw [h2]
    rw [getOp_disk_some
        { st with waiting := mapDelete (mapSet st.waiting k v) k,
                  disk := mapSet st.disk k v,
                  pending := mapDelete (st.pending ++ [(k, v)]) k }
        k v hr hk hc0 (mapGet_mapSet_self st.disk k v)]

/-- C4 witness — the amended round-trip at the concrete freshly opened
no-cache store, key `"abc"`, value `7`. -/
theorem c4_witness :
    validKeyB "abc" = true ∧
    (setResolved traceBase "abc" (Val.vnum 7)).1 = .ok (Val.vnum 7) ∧
    (getOp (setResolved traceBase "abc" (Val.vnum 7)).2 "abc").1 =
      .ok (Val.vnum 7) :=
  ⟨by decide,
   (c4_set_get_roundtrip traceBase "abc" (Val.vnum 7) rfl (by decide) rfl
     (Or.inr ⟨rfl, rfl⟩)).1,
   (c4_set_get_roundtrip traceBase "abc" (Val.vnum 7) rfl (by decide) rfl
     (Or.inr ⟨rfl, rfl⟩)).2⟩

/-- A default-configuration store (`useCache: true`) opened over a
directory holding `abc.json` with content `1`; the startup scan fills the
cache. -/
def c5St : Store :=
  openOp (Ghomap.mkStore "default" true false true) [("abc", Val.vnum 1)]

/-- C5 counterexample — `set` writes the cache before `write` serializes,
so a non-serializable value fails with `NotSerializable` but has already
replaced the cache entry for the key (and left the in-flight marker set):
the claim that the cache entry is unchanged is false. -/
theorem c5_counterexample_cache_mutated :
    (setOp c5St "abc" Val.circular).1 = .error .notSerializable ∧
    mapGet c5St.cache "abc" = some (Val.vnum 1) ∧
    mapGet (setOp c5St "abc" Val.circular).2.cache "abc" = some Val.circular ∧
    mapGet (setOp c5St "abc" Val.circular).2.cache "abc" ≠
      mapGet c5St.cache "abc" :=
  ⟨rfl, rfl, rfl, by
    have h1 : mapGet (setOp c5St "abc" Val.circular).2.cache "abc" =
        some Val.circular := rfl
    have h2 : mapGet c5St.cache "abc" = some (Val.vnum 1) := rfl
    rw [h1, h2]; simp⟩

/-- C5 as amended — on a ready store that is not cache-only and has no
write in flight for `k`, `set(k, v)` with a non-serializable `v` fails
with `NotSerializable` and writes no file (disk and pending I/O are
untouched), but it has already updated the cache entry for `k` (when
caching is enabled) and left the pending-write marker for `k` set to the
failing value. -/
theorem c5_notSerializable_partial_mutation (st : Store) (k : String)
    (v : Val) (hr : st.ready = true) (hk : validKeyB k = true)
    (hs : serializable v = false) (ho : st.cacheOnly = false)
    (hw : mapHas st.waiting k = false) :
    setOp st k v =
      (.error .notSerializable,
        { st with cache := if st.useCache then mapSet st.cache k v
                           else st.cache,
                  waiting := mapSet st.waiting k v }) := by
  unfold setOp checkReadyE writeBeginSt stringify
  by_cases hu : st.useCache
  · simp [hr, hk, hs, ho, hu, hw]
  · simp [hr, hk, hs, ho, hu, hw]

/-- C5 witness — the amended statement at the concrete caching store
`c5St` and the non-serializable value `circular`. -/
theorem c5_witness :
    serializable Val.circular = false ∧
    setOp c5St "abc" Val.circular =
      (.error .notSerializable,
        { c5St with cache := if c5St.useCache then
                               mapSet c5St.cache "abc" Val.circular
                             else c5St.cache,
                    waiting := mapSet c5St.waiting "abc" Val.circular }) :=
  ⟨rfl, c5_notSerializable_partial_mutation c5St "abc" Val.circular rfl
    (by decide) rfl rfl rfl⟩

/-- C10 — `has` and `delete` perform no key validation whatsoever: on a
ready store they succeed for every string key (never `InvalidKey`), the
existence check and unlink operating on the raw key, and `filepath`
concatenates the raw key verbatim into the path. -/
theorem c10_has_delete_skip_validation (st : Store) (k : String)
    (hr : st.ready = true) :
    hasOp st k =
      (.ok (if st.cacheUsed then mapHas st.cache k else mapHas st.disk k),
       st) ∧
    (deleteOp st k).1 = .ok () ∧
    Store.filepath st k =
      Ghomap.dataPath ++ "/" ++ st.name ++ "/" ++ k ++ ".json" := by
  refine ⟨?_, ?_, rfl⟩
  · unfold hasOp checkReadyE
    simp [hr]
  · unfold deleteOp checkReadyE
    by_cases ho : st.cacheOnly
    · simp [hr, ho]
    · by_cases hd : mapHas st.disk k <;> simp [hr, ho, hd]

/-- C10 witness — a string that fails the kebab-case check of `set`/`get`
(it contains an upper-case letter, spaces, a path separator and a
traversal sequence) flows through `has` and `delete` without any error. -/
theorem c10_witness :
    validKeyB "../A bad/key" = false ∧
    hasOp c5St "../A bad/key" = (.ok false, c5St) ∧
    (deleteOp c5St "../A bad/key").1 = .ok () :=
  ⟨by decide,
   (c10_has_delete_skip_validation c5St "../A bad/key" rfl).1,
   (c10_has_delete_skip_validation c5St "../A bad/key" rfl).2.1⟩

/-- C3 — the readiness gate: every public operation except `open` is
wrapped by the `checkReady` decorator, so on a store that is not ready
(a non-cache-only store before `open`, or any store after a successful
`destroy`) each of them fails with the `NotReady` error naming the
attempted operation; moreover a successful `destroy` leaves `ready =
false` and a non-cache-only constructor starts with `ready = false`. -/
theorem c3_readiness_gate (st : Store) (h : st.ready = false)
    (k : String) (v : Val) (d : Val) (items : List Val) (item : Val)
    (p : Val → String → Bool) (f : Val → String → Unit)
    (g : Val → String → Nat) (n : Nat) :
    (setOp st k v).1 = .error (.notReady "set") ∧
    (getOp st k).1 = .error (.notReady "get") ∧
    (hasOp st k).1 = .error (.notReady "has") ∧
    (deleteOp st k).1 = .error (.notReady "delete") ∧
    (deleteAllOp st).1 = .error (.notReady "deleteAll") ∧
    (ensureOp st k d).1 = .error (.notReady "ensure") ∧
    (countOp st).1 = .error (.notReady "count") ∧
    (randomOp st n).1 = .error (.notReady "random") ∧
    (forEachOp st f).1 = .error (.notReady "forEach") ∧
    (mapOp st g).1 = .error (.notReady "map") ∧
    (someOp st p).1 = .error (.notReady "some") ∧
    (everyOp st p).1 = .error (.notReady "every") ∧
    (filterOp st p).1 = .error (.notReady "filter") ∧
    (filterArrayOp st p).1 = .error (.notReady "filterArray") ∧
    (findOp st p).1 = .error (.notReady "find") ∧
    (pushOp st k items).1 = .error (.notReady "push") ∧
    (unshiftOp st k item).1 = .error (.notReady "unshift") ∧
    (popOp st k).1 = .error (.notReady "pop") ∧
    (shiftOp st k).1 = .error (.notReady "shift") ∧
    (removeOp st k item).1 = .error (.notReady "remove") ∧
    (includesOp st k item).1 = .error (.notReady "includes") ∧
    (fetchAllOp st).1 = .error (.notReady "fetchAll") ∧
    (fetchValuesOp st).1 = .error (.notReady "fetchValues") ∧
    (fetchKeysOp st).1 = .error (.notReady "fetchKeys") ∧
    (destroyOp st).1 = .error (.notReady "destroy") ∧
    (∀ st2 : Store, (destroyOp st2).1 = .ok () →
      (destroyOp st2).2.ready = false) ∧
    (∀ name u fa, (Ghomap.mkStore name u false fa).ready = false) := by
  refine ⟨?_, ?_, ?_, ?_, ?_, ?_, ?_, ?_, ?_, ?_, ?_, ?_, ?_, ?_, ?_, ?_,
    ?_, ?_, ?_, ?_, ?_, ?_, ?_, ?_, ?_, ?_, ?_⟩
  · simp [setOp, checkReadyE, h]
  · simp [getOp, checkReadyE, h]
  · simp [hasOp, checkReadyE, h]
  · simp [deleteOp, checkReadyE, h]
  · simp [deleteAllOp, checkReadyE, h]
  · simp [ensureOp, checkReadyE, h]
  · simp [countOp, checkReadyE, h]
  · simp [randomOp, checkReadyE, h]
  · simp [forEachOp, checkReadyE, h]
  · simp [mapOp, checkReadyE, h]
  · simp [someOp, checkReadyE, h]
  · simp [everyOp, checkReadyE, h]
  · simp [filterOp, checkReadyE, h]
  · simp [filterArrayOp, checkReadyE, h]
  · simp [findOp, checkReadyE, h]
  · simp [pushOp, checkReadyE, h]
  · simp [unshiftOp, checkReadyE, h]
  · simp [popOp, checkReadyE, h]
  · simp [shiftOp, checkReadyE, h]
  · simp [removeOp, checkReadyE, h]
  · simp [includesOp, checkReadyE, h]
  · simp [fetchAllOp, checkReadyE, h]
  · simp [fetchValuesOp, checkReadyE, h]
  · simp [fetchKeysOp, checkReadyE, h]
  · simp [destroyOp, checkReadyE, h]
  · intro st2 hok
    unfold destroyOp checkReadyE at hok ⊢
    by_cases hr2 : st2.ready
    · simp only [hr2, if_true] at hok ⊢
      rcases hda : deleteAllOp st2 with ⟨r, st3⟩
      rw [hda] at hok
      cases r with
      | error e => simp at hok
      | ok u =>
        by_cases hcond : st3.dirExists && st3.disk.isEmpty
        · simp [hcond]
        · simp [hcond] at hok
    · simp [hr2] at hok
  · intro name u fa
    rfl

/-- A freshly constructed default store (`new Ghomap()`), never opened. -/
def c3nr : Store := Ghomap.mkStore "default" true false true

/-- C3 witness — the readiness gate at the concrete never-opened store:
`set` fails with the `NotReady` error naming `set`. -/
theorem c3_witness :
    c3nr.ready = false ∧
    (setOp c3nr "abc" Val.vnull).1 = .error (.notReady "set") :=
  ⟨rfl,
   (c3_readiness_gate c3nr rfl "abc" .vnull .vnull [] .vnull
     (fun _ _ => true) (fun _ _ => ()) (fun _ _ => 0) 0).1⟩

/-! ## The future of a store after the write machinery wedges (C9) -/

/-- The operations that can touch the write machinery of one key:
a `set` call (any key, any value) and the completion of an outstanding
disk write. -/
inductive WOp where
  | doSet (k : String) (v : Val)
  | doFinish (k : String)

def applyWOp (st : Store) : WOp → Store
  | .doSet k v => (setOp st k v).2
  | .doFinish k => finishOp st k

def runWOps (st : Store) : List WOp → Store
  | [] => st
  | o :: os => runWOps (applyWOp st o) os

/-- The write machinery is wedged for `k`: the `waiting` marker is set but
no disk write for `k` is outstanding, so nothing can ever delete the
marker. -/
def stuckAt (st : Store) (k : String) : Bool :=
  mapHas st.waiting k && !(mapHas st.pending k)

/-- `finishCont` either leaves `waiting` alone or deletes the entry of the
finished key. -/
theorem finishCont_waiting_cases (st : Store) (k1 : String) (w : String) :
    (finishCont st k1 w).waiting = st.waiting ∨
    (finishCont st k1 w).waiting = mapDelete st.waiting k1 := by
  unfold finishCont
  split
  · exact Or.inl rfl
  · split
    · exact Or.inl rfl
    · split
      · exact Or.inr rfl
      · exact Or.inl rfl

/-- One `set` step preserves a wedged key: the marker stays, no disk write
for `k` appears, the file for `k` is untouched, the configuration is
unchanged. -/
theorem setOp_preserves_stuck (st : Store) (k k1 : String) (v : Val)
    (hco : st.cacheOnly = false) (hwk : mapHas st.waiting k = true)
    (hpk : mapGet st.pending k = none) :
    mapHas (setOp st k1 v).2.waiting k = true ∧
    mapGet (setOp st k1 v).2.pending k = none ∧
    mapGet (setOp st k1 v).2.disk k = mapGet st.disk k ∧
    (setOp st k1 v).2.cacheOnly = false ∧
    (setOp st k1 v).2.useCache = st.useCache ∧
    (setOp st k1 v).2.ready = st.ready := by
  unfold setOp checkReadyE writeBeginSt stringify
  by_cases hr : st.ready
  · by_cases hk1 : validKeyB k1
    · by_cases hwb : mapHas st.waiting k1
      · -- in-flight (or wedged) key: only `waiting` is re-stored
        by_cases he : k1 = k
        · subst he
          by_cases hu : st.useCache <;>
            simp [hr, hk1, hco, hu, hwb, mapHas_mapSet_self, hpk]
        · by_cases hu : st.useCache <;>
            simp [hr, hk1, hco, hu, hwb, mapHas_mapSet_ne _ _ he, hwk, hpk]
      · -- a fresh write for a different key is issued (or fails to
        -- serialize); `k`'s marker and file are untouched
        have he : k1 ≠ k := by
          intro he; subst he; rw [hwk] at hwb; exact hwb rfl
        have happ : mapGet (st.pending ++ [(k1, v)]) k = none := by
          rw [mapGet_append_none hpk]
          simp [mapGet, he]
        by_cases hs : serializable v
        · by_cases hu : st.useCache <;>
            simp [hr, hk1, hco, hu, hwb, hs, mapHas_mapSet_ne _ _ he, hwk,
              hpk, happ]
        · by_cases hu : st.useCache <;>
            simp [hr, hk1, hco, hu, hwb, hs, mapHas_mapSet_ne _ _ he, hwk,
              hpk]
    · simp [hr, hk1, hwk, hpk, hco]
  · simp [hr, hwk, hpk, hco]

/-- One write-completion step preserves a wedged key. -/
theorem finishOp_preserves_stuck (st : Store) (k k1 : String)
    (hwk : mapHas st.waiting k = true) (hpk : mapGet st.pending k = none) :
    mapHas (finishOp st k1).waiting k = true ∧
    mapGet (finishOp st k1).pending k = none ∧
    mapGet (finishOp st k1).disk k = mapGet st.disk k ∧
    (finishOp st k1).cacheOnly = st.cacheOnly ∧
    (finishOp st k1).useCache = st.useCache ∧
    (finishOp st k1).ready = st.ready := by
  unfold finishOp
  cases hp1 : mapGet st.pending k1 with
  | none => exact ⟨hwk, hpk, rfl, rfl, rfl, rfl⟩
  | some w =>
    have he : k1 ≠ k := by
      intro he; subst he; rw [hpk] at hp1; exact Option.noConfusion hp1
    set st1 : Store :=
      { st with disk := mapSet st.disk k1 w,
                pending := mapDelete st.pending k1 } with hst1
    obtain ⟨f1, f2, f3, f4, _, f6, f7⟩ := finishCont_fields st1 k1 (render w)
    refine ⟨?_, ?_, ?_, ?_, ?_, ?_⟩
    · rcases finishCont_waiting_cases st1 k1 (render w) with hcase | hcase
    

      · rw [hcase]; exact hwk
      · rw [hcase]
        show mapHas (mapDelete st.waiting k1) k = true
        rw [mapHas_mapDelete_ne _ he]; exact hwk
    · rw [f7]
      show mapGet (mapDelete st.pending k1) k = none
      rw [mapGet_mapDelete_ne _ he]; exact hpk
    · rw [f6]
      show mapGet (mapSet st.disk k1 w) k = mapGet st.disk k
      exact mapGet_mapSet_ne _ _ he
    · rw [f4]
    · rw [f3]
    · rw [f1]

/-- A single step (any `set`, any write completion) preserves a wedged
key. -/
theorem applyWOp_preserves_stuck (st : Store) (k : String) (o : WOp)
    (hco : st.cacheOnly = false) (hwk : mapHas st.waiting k = true)
    (hpk : mapGet st.pending k = none) :
    mapHas (applyWOp st o).waiting k = true ∧
    mapGet (applyWOp st o).pending k = none ∧
    mapGet (applyWOp st o).disk k = mapGet st.disk k ∧
    (applyWOp st o).cacheOnly = false ∧
    (applyWOp st o).useCache = st.useCache ∧
    (applyWOp st o).ready = st.ready := by
  cases o with
  | doSet k1 v => exact setOp_preserves_stuck st k k1 v hco hwk hpk
  | doFinish k1 =>
    obtain ⟨h1, h2, h3, h4, h5, h6⟩ := finishOp_preserves_stuck st k k1 hwk hpk
    exact ⟨h1, h2, h3, h4.trans hco, h5, h6⟩

/-- Every future (any sequence of `set` calls and write completions)
preserves a wedged key and never writes its file again. -/
theorem runWOps_preserves_stuck (L : List WOp) (st : Store) (k : String)
    (hco : st.cacheOnly = false) (hwk : mapHas st.waiting k = true)
    (hpk : mapGet st.pending k = none) :
    mapHas (runWOps st L).waiting k = true ∧
    mapGet (runWOps st L).pending k = none ∧
    mapGet (runWOps st L).disk k = mapGet st.disk k ∧
    (runWOps st L).cacheOnly = false ∧
    (runWOps st L).useCache = st.useCache ∧
    (runWOps st L).ready = st.ready := by
  induction L generalizing st with
  | nil => exact ⟨hwk, hpk, rfl, hco, rfl, rfl⟩
  | cons o os ih =>
    obtain ⟨h1, h2, h3, h4, h5, h6⟩ := applyWOp_preserves_stuck st k o hco hwk hpk
    obtain ⟨g1, g2, g3, g4, g5, g6⟩ := ih (applyWOp st o) h4 h1 h2
    exact ⟨g1, g2, g3.trans h3, g4, g5.trans h5, g6.trans h6⟩

/-- On a store whose `waiting` marker for `k` is set, `set(k, c)` takes
the no-write branch: it resolves at once with `c`, having updated only the
cache (when caching applies) and the marker. -/
theorem setOp_stuck_shape (st : Store) (k : String) (c : Val)
    (hco : st.cacheOnly = false) (hw : mapHas st.waiting k = true)
    (hr : st.ready = true) (hk : validKeyB k = true) :
    setOp st k c =
      (.ok c, { st with cache := if st.useCache then mapSet st.cache k c
                                 else st.cache,
                        waiting := mapSet st.waiting k c }) := by
  unfold setOp checkReadyE writeBeginSt
  by_cases hu : st.useCache <;> simp [hr, hk, hco, hu, hw]

/-- C9 counterexample — the wedge is not triggered by the *arrival* of a
divergent `set` while a write is in flight, as the claim states: from
`traceS2` (write of `1` in flight, `set("abc", 2)` with a different
serialized form already arrived) a further `set("abc", 1)` restores the
original serialized form before the write completes, so the completion
clears the marker after all, and a later `set` issues a disk write for the
key again. -/
theorem c9_counterexample_marker_cleared :
    mapGet traceS2.pending "abc" = some (Val.vnum 1) ∧
    mapGet traceS2.waiting "abc" = some (Val.vnum 2) ∧
    render (Val.vnum 2) ≠ render (Val.vnum 1) ∧
    mapHas (finishOp (setOp traceS2 "abc" (Val.vnum 1)).2 "abc").waiting
      "abc" = false ∧
    (setOp (finishOp (setOp traceS2 "abc" (Val.vnum 1)).2 "abc") "abc"
      (Val.vnum 7)).2.pending ≠ [] :=
  ⟨rfl, rfl, by decide, rfl, by
    have h : (setOp (finishOp (setOp traceS2 "abc" (Val.vnum 1)).2 "abc")
        "abc" (Val.vnum 7)).2.pending = [("abc", Val.vnum 7)] := rfl
    rw [h]; simp⟩

/-- C9 as amended — the wedge is triggered at write *completion*: when the
disk write for `k` completes while the value in `waiting` has a different
serialized form from the one just written (and no other write for `k` is
outstanding), then forever afterwards — under any sequence of `set` calls
and write completions — the `waiting` marker for `k` stays set, no disk
write for `k` is outstanding or ever issued again, the file for `k` keeps
the value just written, and every subsequent `set(k, c)` resolves
immediately having updated only the cache (when caching applies) and the
marker. -/
theorem c9_wedged_after_divergent_completion (st : Store) (k : String)
    (w u : Val) (hco : st.cacheOnly = false)
    (hp : mapGet st.pending k = some w)
    (hsingle : mapGet (mapDelete st.pending k) k = none)
    (hw : mapGet st.waiting k = some u)
    (hs : serializable u = true)
    (hne : render u ≠ render w) :
    (∀ L : List WOp,
       mapHas (runWOps (finishOp st k) L).waiting k = true) ∧
    (∀ L : List WOp,
       mapGet (runWOps (finishOp st k) L).pending k = none) ∧
    (∀ L : List WOp,
       mapGet (runWOps (finishOp st k) L).disk k = some w) ∧
    (∀ (L : List WOp) (c : Val),
       (runWOps (finishOp st k) L).ready = true → validKeyB k = true →
       setOp (runWOps (finishOp st k) L) k c =
         (.ok c,
           { runWOps (finishOp st k) L with
              cache := if (runWOps (finishOp st k) L).useCache then
                         mapSet (runWOps (finishOp st k) L).cache k c
                       else (runWOps (finishOp st k) L).cache,
              waiting := mapSet (runWOps (finishOp st k) L).waiting k c })) := by
  have hfin : finishOp st k =
      { st with disk := mapSet st.disk k w,
                pending := mapDelete st.pending k } := by
    unfold finishOp
    simp only [hp]
    unfold finishCont
    simp only [hw]
    unfold stringify
    simp [hs, hne]
  have hwk : mapHas (finishOp st k).waiting k = true := by
    rw [hfin]
    show (mapGet st.waiting k).isSome = true
    rw [hw]; rfl
  have hpk : mapGet (finishOp st k).pending k = none := by
    rw [hfin]; exact hsingle
  have hco2 : (finishOp st k).cacheOnly = false := by rw [hfin]; exact hco
  refine ⟨?_, ?_, ?_, ?_⟩
  · intro L
    exact (runWOps_preserves_stuck L (finishOp st k) k hco2 hwk hpk).1
  · intro L
    exact (runWOps_preserves_stuck L (finishOp st k) k hco2 hwk hpk).2.1
  · intro L
    have h3 := (runWOps_preserves_stuck L (finishOp st k) k hco2 hwk hpk).2.2.1
    rw [h3, hfin]
    show mapGet (mapSet st.disk k w) k = some w
    exact mapGet_mapSet_self _ _ _
  · intro L c hr hk
    obtain ⟨g1, _, _, g4, _, _⟩ :=
      runWOps_preserves_stuck L (finishOp st k) k hco2 hwk hpk
    exact setOp_stuck_shape (runWOps (finishOp st k) L) k c g4 g1 hr hk

/-- C9 witness — the amended statement at the concrete burst state
`traceS2` (write of `1` in flight, `waiting` holding `2`). -/
theorem c9_witness :
    render (Val.vnum 2) ≠ render (Val.vnum 1) ∧
    (∀ L : List WOp,
       mapHas (runWOps (finishOp traceS2 "abc") L).waiting "abc" = true) ∧
    (∀ L : List WOp,
       mapGet (runWOps (finishOp traceS2 "abc") L).pending "abc" = none) :=
  ⟨by decide,
   (c9_wedged_after_divergent_completion traceS2 "abc" (Val.vnum 1)
     (Val.vnum 2) rfl rfl rfl rfl rfl (by decide)).1,
   (c9_wedged_after_divergent_completion traceS2 "abc" (Val.vnum 1)
     (Val.vnum 2) rfl rfl rfl rfl rfl (by decide)).2.1⟩
